import Mathlib

/-!
Shallow embedding of the content-workflow core of the dashboard
(`src/App.tsx`, `src/components/ContentLibraryView.tsx`).

Conventions of the embedding:
* Timestamps are modelled as natural numbers (milliseconds since the epoch);
  the JavaScript calendar-day advance `d.setDate(d.getDate() + n)` is modelled
  as adding `n * msPerDay` milliseconds, and `scheduledFor` (an ISO string in
  the source) is modelled as the underlying instant.
* The i18n translation layer is modelled by the inductive `TMessage`: each
  `t(key, params)` call site becomes the constructor of that key applied to
  the parameters that the source passes.
* `showNotification` side effects are collected into a list, in emission
  order.
* The React state closures are made explicit: `updateLibraryItem` in
  `App.tsx` looks the item up in the `library` binding of the render that
  created the closure, while the write goes through the functional
  `setLibrary(prev => ...)` update; the embedding therefore takes a
  `findLib` (snapshot used by `library.find`) and an `applyLib` (list the
  functional update is applied to).
* The `USERS` directory constant lives in `services/backendService.ts`,
  which is not part of the sources here; every function that reads it is
  parameterised by a `users : List User` list instead.
-/

namespace ContentWorkflow

/-- Milliseconds in one day; `intervalDays` cursor advances are modelled as
multiples of this. -/
def msPerDay : Nat := 86400000

/-- `ContentType` from `types.ts`. -/
inductive ContentType
  | article
  | product
deriving DecidableEq

/-- `ContentStatus` as used by the workflow code:
`'draft' | 'needs-review' | 'approved' | 'scheduled' | 'published'`. -/
inductive ContentStatus
  | draft
  | needsReview
  | approved
  | scheduled
  | published
deriving DecidableEq

/-- `UserRole` enum (`Writer`, `Editor`). -/
inductive UserRole
  | Writer
  | Editor
deriving DecidableEq

/-- `User` record (`id`, `email`, `role`). -/
structure User where
  id : String
  email : String
  role : UserRole
deriving DecidableEq

/-- The fields of `GeneratedContent` that the workflow core reads or
writes.  Body fields (article body, product descriptions, images, meta
description) are irrelevant to every claim and are represented by the
opaque `title` plus the structural fields below. -/
structure GeneratedContent where
  id : String
  type : ContentType
  title : String
  status : ContentStatus
  authorId : Option String
  siteId : Option String
  wordpressId : Option Nat
  wordpressUrl : Option String
  scheduledFor : Option Nat
  createdAt : Nat
  updatedAt : Option Nat
deriving DecidableEq

/-- Notification severity (`'success' | 'error' | 'info'`). -/
inductive NotifType
  | success
  | error
  | info
deriving DecidableEq

/-- One constructor per `t(key, params)` call site of the workflow core;
the constructor arguments are exactly the data the source interpolates
into the message. -/
inductive TMessage
  | submittedForReviewBy (title : String) (authorEmail : Option String)
  | approvedBy (title : String) (editorEmail : Option String)
  | rejectedBy (title : String) (editorEmail : Option String)
  | bulkScheduleSuccess (count : Nat)
  | publishSuccess
  | publishFail (error : String)
deriving DecidableEq

/-- `Notification` record (`message`, `type`). -/
structure Notification where
  message : TMessage
  type : NotifType
deriving DecidableEq

/-- `Partial<GeneratedContent>` restricted to the keys that the workflow
call sites pass (`status`, `scheduledFor`, `siteId`, `wordpressId`,
`wordpressUrl`); `some v` means the key is present with value `v`. -/
structure ContentUpdates where
  status : Option ContentStatus
  scheduledFor : Option Nat
  siteId : Option String
  wordpressId : Option Nat
  wordpressUrl : Option String
deriving DecidableEq

/-- JS object spread `{ ...item, ...updates, updatedAt: new Date() }`:
a key present in `updates` overrides the item's value, and `updatedAt`
is always set. -/
def applyUpdates (item : GeneratedContent) (u : ContentUpdates) (now : Nat) :
    GeneratedContent :=
  { item with
    status := match u.status with
      | some s => s
      | none => item.status
    scheduledFor := match u.scheduledFor with
      | some v => some v
      | none => item.scheduledFor
    siteId := match u.siteId with
      | some v => some v
      | none => item.siteId
    wordpressId := match u.wordpressId with
      | some v => some v
      | none => item.wordpressId
    wordpressUrl := match u.wordpressUrl with
      | some v => some v
      | none => item.wordpressUrl
    updatedAt := some now }

/-- `USERS.find(u => u.id === item.authorId)`: an absent `authorId`
compares equal to no user id. -/
def findAuthor (users : List User) (authorId : Option String) : Option User :=
  match authorId with
  | none => none
  | some aid => users.find? (fun u => u.id == aid)

/-- The custom-notification block of `updateLibraryItem` (`App.tsx`):
fires only when a `status` key is present and differs from the old
status, and only for the `needs-review` / `approved` /
`needs-review → draft` cases. -/
def transitionNotification (users : List User) (currentUser : Option User)
    (item : GeneratedContent) (u : ContentUpdates) : Option Notification :=
  match u.status with
  | none => none
  | some newStatus =>
    if newStatus = item.status then none
    else if newStatus = ContentStatus.needsReview then
      some ⟨TMessage.submittedForReviewBy item.title
              ((findAuthor users item.authorId).map User.email), NotifType.info⟩
    else if newStatus = ContentStatus.approved then
      some ⟨TMessage.approvedBy item.title (currentUser.map User.email),
            NotifType.success⟩
    else if newStatus = ContentStatus.draft ∧ item.status = ContentStatus.needsReview then
      some ⟨TMessage.rejectedBy item.title (currentUser.map User.email),
            NotifType.error⟩
    else none

/-- `updateLibraryItem` (`App.tsx` lines 136-158).  `findLib` is the
`library` binding captured by the closure, `applyLib` the list the
functional `setLibrary` update is applied to; direct synchronous calls
pass the same list for both. -/
def updateLibraryItem (users : List User) (currentUser : Option User)
    (findLib applyLib : List GeneratedContent) (id : String)
    (u : ContentUpdates) (now : Nat) :
    List GeneratedContent × Option Notification :=
  match findLib.find? (fun i => i.id == id) with
  | none => (applyLib, none)
  | some item =>
    (applyLib.map (fun i => if i.id == id then applyUpdates i u now else i),
     transitionNotification users currentUser item u)

/-- The test `const item = library.find(i => i.id === id);
if (item && item.status === 'approved')` of `handleBulkSchedule`. -/
def isApprovedIn (orig : List GeneratedContent) (id : String) : Bool :=
  match orig.find? (fun i => i.id == id) with
  | some item => item.status == ContentStatus.approved
  | none => false

/-- The update payload `{ status: 'scheduled', scheduledFor: cursor }`
passed by `handleBulkSchedule`. -/
def schedUpd (cursor : Nat) : ContentUpdates :=
  ⟨some ContentStatus.scheduled, some cursor, none, none, none⟩

/-- The `selectedIds.forEach` loop of `handleBulkSchedule`: the status
test reads the `library` snapshot `orig`, the cursor advances only when
an approved item was scheduled, and each write goes through
`updateLibraryItem` (whose lookup also reads the same snapshot). -/
def bulkGo (users : List User) (currentUser : Option User)
    (orig : List GeneratedContent) (now step : Nat) :
    List String → Nat → List GeneratedContent →
    List GeneratedContent × List Notification
  | [], _, lib => (lib, [])
  | id :: rest, cursor, lib =>
    if isApprovedIn orig id then
      let r := updateLibraryItem users currentUser orig lib id (schedUpd cursor) now
      let r2 := bulkGo users currentUser orig now step rest (cursor + step * msPerDay) r.1
      (r2.1, r.2.toList ++ r2.2)
    else
      bulkGo users currentUser orig now step rest cursor lib

/-- `handleBulkSchedule` (`ContentLibraryView.tsx` lines 113-132): a
silent no-op for non-editors; otherwise runs the scheduling loop and
then emits one aggregate notification whose count is
`selectedIds.length`. -/
def handleBulkSchedule (users : List User) (currentUser : User)
    (library : List GeneratedContent) (selectedIds : List String)
    (startDate intervalDays now : Nat) :
    List GeneratedContent × List Notification :=
  if currentUser.role = UserRole.Editor then
    let r := bulkGo users (some currentUser) library now intervalDays selectedIds startDate library
    (r.1, r.2 ++ [⟨TMessage.bulkScheduleSuccess selectedIds.length, NotifType.success⟩])
  else (library, [])

/-- The per-item guard of `renderWorkflowActions` (`ContentLibraryView.tsx`
lines 134-155): the set of status targets for which a button is rendered.
Editors get approve/reject on `needs-review` items (the `approved` case
renders the publish button, which goes through the separate publish flow,
not `handleStatusChange`); writers get submit-for-review on their own
drafts only. -/
def transitionAllowed (currentUser : User) (item : GeneratedContent)
    (target : ContentStatus) : Bool :=
  if currentUser.role = UserRole.Editor then
    match item.status with
    | ContentStatus.needsReview =>
      target == ContentStatus.approved || target == ContentStatus.draft
    | _ => false
  else
    item.status == ContentStatus.draft &&
      item.authorId == some currentUser.id &&
      target == ContentStatus.needsReview

/-- The update payload `{ status }` passed by `handleStatusChange`. -/
def statusUpd (target : ContentStatus) : ContentUpdates :=
  ⟨some target, none, none, none, none⟩

/-- A single-item transition request as it exists in the code: clicking a
workflow button.  `renderWorkflowActions` renders a button only when
`transitionAllowed` holds, and the click runs
`handleStatusChange(id, target)` = `onUpdateItem(id, { status: target })`.
A target for which no button is rendered produces no call at all. -/
def requestTransition (users : List User) (currentUser : User)
    (library : List GeneratedContent) (id : String) (target : ContentStatus)
    (now : Nat) : List GeneratedContent × List Notification :=
  match library.find? (fun i => i.id == id) with
  | none => (library, [])
  | some item =>
    if transitionAllowed currentUser item target then
      let r := updateLibraryItem users (some currentUser) library library id
                 (statusUpd target) now
      (r.1, r.2.toList)
    else (library, [])

/-- `WordPressSite` restricted to the fields `handlePublish` reads. -/
structure WordPressSite where
  id : String
  url : String
  name : String
deriving DecidableEq

/-- `PublishingOptions` restricted to the field `handlePublish` itself
reads (`siteId`); the remaining options are only forwarded to the
external `publishContent` collaborator. -/
structure PublishingOptions where
  siteId : String
deriving DecidableEq

/-- `handlePublish` (`ContentLibraryView.tsx` lines 67-91).  The outcome
of the external `publishContent(site, content, options)` call is passed
in as `pubResult` (`Except` models the promise rejecting with an error
message or resolving with `{ postUrl, postId }`).  An unknown `siteId`
throws before the external call; the shared `catch` turns any error
message into a `publishFail` notification and performs no update. -/
def handlePublish (currentUser : User) (contentToPublish : GeneratedContent)
    (sites : List WordPressSite) (options : PublishingOptions)
    (pubResult : Except String (String × Nat)) (users : List User)
    (library : List GeneratedContent) (now : Nat) :
    List GeneratedContent × List Notification :=
  if currentUser.role = UserRole.Editor then
    match sites.find? (fun s => s.id == options.siteId) with
    | none =>
      (library, [⟨TMessage.publishFail ("Selected site not found"), NotifType.error⟩])
    | some site =>
      match pubResult with
      | Except.error msg => (library, [⟨TMessage.publishFail msg, NotifType.error⟩])
      | Except.ok (postUrl, postId) =>
        let r := updateLibraryItem users (some currentUser) library library
                   contentToPublish.id
                   ⟨some ContentStatus.published, none, some site.id,
                    some postId, some postUrl⟩ now
        (r.1, r.2.toList ++ [⟨TMessage.publishSuccess, NotifType.success⟩])
  else (library, [])

/-- Modelled from the spec: the i18n translation table (`i18n.ts`) is not
among the sources; the spec fixes the placeholder an unknown or absent
author resolves to as the string "unknown author"
(`t('authorUnknown')`). -/
def authorUnknown : String := "unknown author"

/-- `getAuthorEmail` (`ContentLibraryView.tsx` lines 41-45). -/
def getAuthorEmail (users : List User) (authorId : Option String) : String :=
  match authorId with
  | none => authorUnknown
  | some aid =>
    match users.find? (fun u => u.id == aid) with
    | some u => u.email
    | none => authorUnknown

/-- `s.toLowerCase()`, modelled character-wise on the underlying
character list (ASCII case folding). -/
def lowerData (s : String) : List Char :=
  s.data.map Char.toLower

/-- `a.toLowerCase().includes(b.toLowerCase())`: case-insensitive
substring containment. -/
def strIncludesCI (s sub : String) : Bool :=
  decide (lowerData sub <:+: lowerData s)

/-- The `typeFilter` state (`'all' | 'article' | 'product'`). -/
inductive TypeFilter
  | all
  | article
  | product
deriving DecidableEq

/-- The `statusFilter` state (`ContentStatus | 'all'`). -/
inductive StatusFilter
  | all
  | only (s : ContentStatus)
deriving DecidableEq

/-- First filter stage: `typeFilter === 'all' || item.type === typeFilter`. -/
def typeMatches (tf : TypeFilter) (item : GeneratedContent) : Bool :=
  match tf with
  | TypeFilter.all => true
  | TypeFilter.article => item.type == ContentType.article
  | TypeFilter.product => item.type == ContentType.product

/-- Second filter stage: `statusFilter === 'all' || item.status === statusFilter`. -/
def statusMatches (sf : StatusFilter) (item : GeneratedContent) : Bool :=
  match sf with
  | StatusFilter.all => true
  | StatusFilter.only s => item.status == s

/-- Third filter stage: case-insensitive match of the search term against
the title or the resolved author email. -/
def searchMatches (users : List User) (searchTerm : String)
    (item : GeneratedContent) : Bool :=
  strIncludesCI item.title searchTerm ||
    strIncludesCI (getAuthorEmail users item.authorId) searchTerm

/-- `filteredLibrary` (`ContentLibraryView.tsx` lines 47-55): the three
chained `.filter` calls. -/
def filteredLibrary (users : List User) (library : List GeneratedContent)
    (tf : TypeFilter) (sf : StatusFilter) (searchTerm : String) :
    List GeneratedContent :=
  ((library.filter (typeMatches tf)).filter (statusMatches sf)).filter
    (searchMatches users searchTerm)

/-- Index of the first occurrence of `x` in a list of ids. -/
def idxOf? (x : String) : List String → Option Nat
  | [] => none
  | a :: rest => if a == x then some 0 else (idxOf? x rest).map (fun k => k + 1)

/-- The result of scheduling one item at a given cursor instant. -/
def schedAt (now cursor : Nat) (item : GeneratedContent) : GeneratedContent :=
  applyUpdates item (schedUpd cursor) now

/-- Closed form of what one bulk-schedule run does to a single item:
`approvedIds` is the sublist of selected ids whose item was approved in
the pre-run library; the item at position `k` of that sublist receives
the `k`-th cursor value, every other item is untouched. -/
def bulkItemResult (approvedIds : List String) (now start stepMs : Nat)
    (item : GeneratedContent) : GeneratedContent :=
  match idxOf? item.id approvedIds with
  | some k => schedAt now (start + k * stepMs) item
  | none => item

/-- The spec's description of the query operation, stated from the spec
text (not from the code) for the refinement comparison with
`filteredLibrary`. -/
def querySpec (users : List User) (tf : TypeFilter) (sf : StatusFilter)
    (searchTerm : String) (item : GeneratedContent) : Prop :=
  (tf = TypeFilter.all ∨
    (tf = TypeFilter.article ∧ item.type = ContentType.article) ∨
    (tf = TypeFilter.product ∧ item.type = ContentType.product)) ∧
  (sf = StatusFilter.all ∨ sf = StatusFilter.only item.status) ∧
  (lowerData searchTerm <:+: lowerData item.title ∨
    lowerData searchTerm <:+: lowerData (getAuthorEmail users item.authorId))

/-- The spec invariant: `scheduledFor` is present iff the status is
`scheduled`, for every item of a library. -/
def SchedInv (lib : List GeneratedContent) : Prop :=
  ∀ item ∈ lib, (item.status = ContentStatus.scheduled ↔ item.scheduledFor ≠ none)

/-- Application state relevant to the workflow core: the item store plus
the ids of publish calls that are in flight across the asynchronous
boundary (clicked and confirmed, not yet resolved). -/
structure AppState where
  library : List GeneratedContent
  pendingPublish : List String
deriving DecidableEq

/-- The update payload written back by `handlePublish` when the external
call resolves:
`{ status: 'published', siteId, wordpressId, wordpressUrl }`. -/
def publishUpd (siteId : String) (postId : Nat) (postUrl : String) :
    ContentUpdates :=
  ⟨some ContentStatus.published, none, some siteId, some postId, some postUrl⟩

/-- One user-visible operation of the workflow core, as implemented.
`create` is the generation subsystem adding a fresh draft
(`addContentToLibrary`; generated items carry `status: 'draft'`, no
`scheduledFor`, and a fresh timestamp-based id); `request` is a workflow
button click; `bulk` is `handleBulkSchedule`; `remove` is
`removeLibraryItem`; `publishClick` starts a publish of an approved item
(the publish button exists only on approved items); `publishResolve` /
`publishReject` are the two outcomes of the in-flight external call,
applied whenever the promise settles — the write-back goes through
`updateLibraryItem` with no further checks. -/
inductive Step (users : List User) : AppState → AppState → Prop
  | create (s : AppState) (item : GeneratedContent)
      (hfresh : ∀ i ∈ s.library, i.id ≠ item.id)
      (hdraft : item.status = ContentStatus.draft)
      (hsched : item.scheduledFor = none) :
      Step users s ⟨item :: s.library, s.pendingPublish⟩
  | request (s : AppState) (actor : User) (id : String)
      (target : ContentStatus) (now : Nat) :
      Step users s
        ⟨(requestTransition users actor s.library id target now).1,
         s.pendingPublish⟩
  | bulk (s : AppState) (actor : User) (ids : List String)
      (start intervalDays now : Nat) :
      Step users s
        ⟨(handleBulkSchedule users actor s.library ids start intervalDays now).1,
         s.pendingPublish⟩
  | remove (s : AppState) (id : String) :
      Step users s ⟨s.library.filter (fun i => i.id != id), s.pendingPublish⟩
  | publishClick (s : AppState) (actor : User) (item : GeneratedContent)
      (hmem : item ∈ s.library) (happ : item.status = ContentStatus.approved)
      (hrole : actor.role = UserRole.Editor) :
      Step users s ⟨s.library, item.id :: s.pendingPublish⟩
  | publishResolve (s : AppState) (actor : User) (id : String)
      (hid : id ∈ s.pendingPublish) (siteId : String) (postId : Nat)
      (postUrl : String) (now : Nat) :
      Step users s
        ⟨(updateLibraryItem users (some actor) s.library s.library id
            (publishUpd siteId postId postUrl) now).1,
         s.pendingPublish.erase id⟩
  | publishReject (s : AppState) (id : String) (hid : id ∈ s.pendingPublish) :
      Step users s ⟨s.library, s.pendingPublish.erase id⟩

/-- States reachable from a fresh session through the workflow core. -/
inductive Reachable (users : List User) : AppState → Prop
  | init : Reachable users ⟨[], []⟩
  | step {s t : AppState} (h : Reachable users s) (hst : Step users s t) :
      Reachable users t

/-- `Step` with the publish write-back restricted to items that were not
scheduled while the call was in flight: the race that the unrestricted
`publishResolve` admits is excluded, everything else is identical. -/
inductive StepSafe (users : List User) : AppState → AppState → Prop
  | create (s : AppState) (item : GeneratedContent)
      (hfresh : ∀ i ∈ s.library, i.id ≠ item.id)
      (hdraft : item.status = ContentStatus.draft)
      (hsched : item.scheduledFor = none) :
      StepSafe users s ⟨item :: s.library, s.pendingPublish⟩
  | request (s : AppState) (actor : User) (id : String)
      (target : ContentStatus) (now : Nat) :
      StepSafe users s
        ⟨(requestTransition users actor s.library id target now).1,
         s.pendingPublish⟩
  | bulk (s : AppState) (actor : User) (ids : List String)
      (start intervalDays now : Nat) :
      StepSafe users s
        ⟨(handleBulkSchedule users actor s.library ids start intervalDays now).1,
         s.pendingPublish⟩
  | remove (s : AppState) (id : String) :
      StepSafe users s ⟨s.library.filter (fun i => i.id != id), s.pendingPublish⟩
  | publishClick (s : AppState) (actor : User) (item : GeneratedContent)
      (hmem : item ∈ s.library) (happ : item.status = ContentStatus.approved)
      (hrole : actor.role = UserRole.Editor) :
      StepSafe users s ⟨s.library, item.id :: s.pendingPublish⟩
  | publishResolve (s : AppState) (actor : User) (id : String)
      (hid : id ∈ s.pendingPublish) (siteId : String) (postId : Nat)
      (postUrl : String) (now : Nat)
      (hsafe : ∀ i ∈ s.library, i.id = id → i.status ≠ ContentStatus.scheduled) :
      StepSafe users s
        ⟨(updateLibraryItem users (some actor) s.library s.library id
            (publishUpd siteId postId postUrl) now).1,
         s.pendingPublish.erase id⟩
  | publishReject (s : AppState) (id : String) (hid : id ∈ s.pendingPublish) :
      StepSafe users s ⟨s.library, s.pendingPublish.erase id⟩

/-- Reachability under `StepSafe`. -/
inductive ReachableSafe (users : List User) : AppState → Prop
  | init : ReachableSafe users ⟨[], []⟩
  | step {s t : AppState} (h : ReachableSafe users s) (hst : StepSafe users s t) :
      ReachableSafe users t

/-! Concrete data used by witnesses and counterexamples. -/

/-- A minimal content item with the given id, status and author; the id
doubles as the title. -/
def mkItem (id : String) (st : ContentStatus) (author : Option String) :
    GeneratedContent :=
  ⟨id, ContentType.article, id, st, author, none, none, none, none, 0, none⟩

/-- A concrete editor. -/
def editorU : User := ⟨"e1", "editor@x", UserRole.Editor⟩

/-- A concrete writer. -/
def writerU : User := ⟨"w1", "writer@x", UserRole.Writer⟩

/-- A concrete user directory. -/
def demoUsers : List User := [writerU, editorU]

/-- A concrete site. -/
def demoSite : WordPressSite := ⟨"s1", "https://site", "Site"⟩

/-- The draft item used in the publish/bulk-schedule race below. -/
def raceItem : GeneratedContent := mkItem "a" ContentStatus.draft (some "w1")

/-- State after creating `raceItem` in a fresh session. -/
def raceS1 : AppState := ⟨raceItem :: ([] : List GeneratedContent), []⟩

/-- State after the author submits the item for review. -/
def raceS2 : AppState :=
  ⟨(requestTransition demoUsers writerU raceS1.library "a"
      ContentStatus.needsReview 1).1, raceS1.pendingPublish⟩

/-- State after the editor approves the item. -/
def raceS3 : AppState :=
  ⟨(requestTransition demoUsers editorU raceS2.library "a"
      ContentStatus.approved 2).1, raceS2.pendingPublish⟩

/-- The item value as it sits in the library once approved. -/
def raceItemApproved : GeneratedContent :=
  { raceItem with status := ContentStatus.approved, updatedAt := some 2 }

/-- State after the editor starts publishing the approved item (the
external call is now in flight). -/
def raceS4 : AppState := ⟨raceS3.library, raceItemApproved.id :: raceS3.pendingPublish⟩

/-- State after the editor bulk-schedules the same item while the
publish call is still in flight. -/
def raceS5 : AppState :=
  ⟨(handleBulkSchedule demoUsers editorU raceS4.library ["a"] 100 1 5).1,
   raceS4.pendingPublish⟩

/-- State after the in-flight publish call resolves and writes back
`status: 'published'` without touching `scheduledFor`. -/
def raceS6 : AppState :=
  ⟨(updateLibraryItem demoUsers (some editorU) raceS5.library raceS5.library "a"
      (publishUpd "s1" 7 "url") 6).1, raceS5.pendingPublish.erase "a"⟩

/-! ## Helper lemmas -/

lemma applyUpdates_id (item : GeneratedContent) (u : ContentUpdates) (now : Nat) :
    (applyUpdates item u now).id = item.id := rfl

lemma updateLibraryItem_found (users : List User) (cu : Option User)
    (findLib applyLib : List GeneratedContent) (id : String)
    (u : ContentUpdates) (now : Nat) (item : GeneratedContent)
    (hf : findLib.find? (fun i => i.id == id) = some item) :
    updateLibraryItem users cu findLib applyLib id u now =
      (applyLib.map (fun i => if i.id == id then applyUpdates i u now else i),
       transitionNotification users cu item u) := by
  simp [updateLibraryItem, hf]

lemma updateLibraryItem_missing (users : List User) (cu : Option User)
    (findLib applyLib : List GeneratedContent) (id : String)
    (u : ContentUpdates) (now : Nat)
    (hf : findLib.find? (fun i => i.id == id) = none) :
    updateLibraryItem users cu findLib applyLib id u now = (applyLib, none) := by
  simp [updateLibraryItem, hf]

lemma exists_of_isApprovedIn (orig : List GeneratedContent) (id : String)
    (h : isApprovedIn orig id = true) :
    ∃ item, orig.find? (fun i => i.id == id) = some item ∧
      item.status = ContentStatus.approved := by
  unfold isApprovedIn at h
  cases hf : orig.find? (fun i => i.id == id) with
  | none => rw [hf] at h; simp at h
  | some item =>
    rw [hf] at h
    exact ⟨item, rfl, by simpa using h⟩

lemma transitionNotification_schedUpd (users : List User) (cu : Option User)
    (item : GeneratedContent) (c : Nat) :
    transitionNotification users cu item (schedUpd c) = none := by
  by_cases h : ContentStatus.scheduled = item.status <;>
    simp [transitionNotification, schedUpd, h]

lemma bulkGo_snd (users : List User) (cu : Option User)
    (orig : List GeneratedContent) (now step : Nat) :
    ∀ (ids : List String) (cursor : Nat) (lib : List GeneratedContent),
      (bulkGo users cu orig now step ids cursor lib).2 = [] := by
  intro ids
  induction ids with
  | nil => intro cursor lib; rfl
  | cons id rest ih =>
    intro cursor lib
    by_cases h : isApprovedIn orig id
    · obtain ⟨item, hf, _⟩ := exists_of_isApprovedIn orig id h
      simp [bulkGo, h,
        updateLibraryItem_found users cu orig lib id (schedUpd cursor) now item hf,
        transitionNotification_schedUpd, ih]
    · simp [bulkGo, h, ih]

lemma idxOf?_eq_none (x : String) :
    ∀ (l : List String), x ∉ l → idxOf? x l = none := by
  intro l
  induction l with
  | nil => intro _; rfl
  | cons a rest ih =>
    intro h
    have hax : (a == x) = false := by
      simp only [beq_eq_false_iff_ne]
      intro hcontr
      exact h (hcontr ▸ List.mem_cons_self a rest)
    simp [idxOf?, hax, ih (fun hm => h (List.mem_cons_of_mem a hm))]

lemma bulkItemResult_nil (now start stepMs : Nat) (item : GeneratedContent) :
    bulkItemResult [] now start stepMs item = item := rfl

lemma bulkGo_fst (users : List User) (cu : Option User)
    (orig : List GeneratedContent) (now step : Nat) :
    ∀ (ids : List String) (cursor : Nat) (lib : List GeneratedContent),
      ids.Nodup →
      (bulkGo users cu orig now step ids cursor lib).1 =
        lib.map (bulkItemResult (ids.filter (fun i => isApprovedIn orig i))
          now cursor (step * msPerDay)) := by
  intro ids
  induction ids with
  | nil =>
    intro cursor lib _
    simp only [bulkGo]
    exact (List.map_id''
      (fun x => bulkItemResult_nil now cursor (step * msPerDay) x) lib).symm
  | cons id rest ih =>
    intro cursor lib hnd
    have hndr : rest.Nodup := (List.nodup_cons.mp hnd).2
    have hnotmem : id ∉ rest := (List.nodup_cons.mp hnd).1
    by_cases h : isApprovedIn orig id
    · obtain ⟨item, hf, _⟩ := exists_of_isApprovedIn orig id h
      rw [List.filter_cons_of_pos (by simpa using h)]
      have hstep : (bulkGo users cu orig now step (id :: rest) cursor lib).1 =
          (bulkGo users cu orig now step rest (cursor + step * msPerDay)
            (lib.map (fun i =>
              if i.id == id then applyUpdates i (schedUpd cursor) now else i))).1 := by
        simp [bulkGo, h,
          updateLibraryItem_found users cu orig lib id (schedUpd cursor) now item hf]
      rw [hstep, ih (cursor + step * msPerDay) _ hndr, List.map_map]
      refine congrArg (fun f => lib.map f) (funext fun x => ?_)
      by_cases hx : (x.id == id) = true
      · have hxid : x.id = id := by simpa using hx
        have hidA : id ∉ rest.filter (fun i => isApprovedIn orig i) :=
          fun hm => hnotmem (List.mem_of_mem_filter hm)
        have h2 : idxOf? id (rest.filter (fun i => isApprovedIn orig i)) = none :=
          idxOf?_eq_none id _ hidA
        simp [Function.comp, hx, bulkItemResult, schedAt, idxOf?, hxid, h2,
          applyUpdates, schedUpd]
      · have hxid : x.id ≠ id := by simpa using hx
        have hhead : (id == x.id) = false := by
          simp only [beq_eq_false_iff_ne]
          exact fun hc => hxid hc.symm
        cases hidx : idxOf? x.id (rest.filter (fun i => isApprovedIn orig i)) with
        | none => simp [Function.comp, hx, bulkItemResult, idxOf?, hhead, hidx]
        | some k =>
          simp [Function.comp, hx, bulkItemResult, idxOf?, hhead, hidx, schedAt]
          congr 2
          ring
    · rw [List.filter_cons_of_neg (by simpa using h)]
      have hstep : (bulkGo users cu orig now step (id :: rest) cursor lib).1 =
          (bulkGo users cu orig now step rest cursor lib).1 := by
        simp [bulkGo, h]
      rw [hstep]
      exact ih cursor lib hndr

lemma transitionAllowed_iff (u : User) (item : GeneratedContent)
    (target : ContentStatus) :
    transitionAllowed u item target = true ↔
      ((u.role = UserRole.Editor ∧ item.status = ContentStatus.needsReview ∧
        (target = ContentStatus.approved ∨ target = ContentStatus.draft)) ∨
       (u.role = UserRole.Writer ∧ item.status = ContentStatus.draft ∧
        item.authorId = some u.id ∧ target = ContentStatus.needsReview)) := by
  cases hr : u.role <;> cases hs : item.status <;>
    simp [transitionAllowed, hr, hs]

lemma transitionAllowed_facts (u : User) (item : GeneratedContent)
    (target : ContentStatus) (h : transitionAllowed u item target = true) :
    target ≠ ContentStatus.scheduled ∧
      (item.status = ContentStatus.draft ∨ item.status = ContentStatus.needsReview) := by
  rcases (transitionAllowed_iff u item target).mp h with ⟨_, hs, ht⟩ | ⟨_, hs, _, ht⟩
  · rcases ht with rfl | rfl
    · exact ⟨by simp, Or.inr hs⟩
    · exact ⟨by simp, Or.inr hs⟩
  · subst ht
    exact ⟨by simp, Or.inl hs⟩

lemma requestTransition_missing (users : List User) (u : User)
    (lib : List GeneratedContent) (id : String) (target : ContentStatus) (now : Nat)
    (hf : lib.find? (fun i => i.id == id) = none) :
    requestTransition users u lib id target now = (lib, []) := by
  simp [requestTransition, hf]

lemma requestTransition_not_allowed (users : List User) (u : User)
    (lib : List GeneratedContent) (id : String) (target : ContentStatus) (now : Nat)
    (item : GeneratedContent)
    (hf : lib.find? (fun i => i.id == id) = some item)
    (hg : transitionAllowed u item target = false) :
    requestTransition users u lib id target now = (lib, []) := by
  simp [requestTransition, hf, hg]

lemma requestTransition_allowed (users : List User) (u : User)
    (lib : List GeneratedContent) (id : String) (target : ContentStatus) (now : Nat)
    (item : GeneratedContent)
    (hf : lib.find? (fun i => i.id == id) = some item)
    (hg : transitionAllowed u item target = true) :
    requestTransition users u lib id target now =
      (lib.map (fun i => if i.id == id then applyUpdates i (statusUpd target) now else i),
       (transitionNotification users (some u) item (statusUpd target)).toList) := by
  simp [requestTransition, hf, hg,
    updateLibraryItem_found users (some u) lib lib id (statusUpd target) now item hf]

lemma transitionNotification_isSome (users : List User) (cu : Option User)
    (u : User) (item : GeneratedContent) (target : ContentStatus)
    (h : transitionAllowed u item target = true) :
    (transitionNotification users cu item (statusUpd target)).isSome = true := by
  rcases (transitionAllowed_iff u item target).mp h with ⟨_, hs, ht⟩ | ⟨_, hs, _, ht⟩
  · rcases ht with rfl | rfl <;> simp [transitionNotification, statusUpd, hs]
  · subst ht
    simp [transitionNotification, statusUpd, hs]

lemma transitionNotification_reject (users : List User) (cu : Option User)
    (item : GeneratedContent) (hs : item.status = ContentStatus.needsReview) :
    transitionNotification users cu item (statusUpd ContentStatus.draft) =
      some ⟨TMessage.rejectedBy item.title (cu.map User.email), NotifType.error⟩ := by
  simp [transitionNotification, statusUpd, hs]

lemma map_id_update (lib : List GeneratedContent) (id : String)
    (u : ContentUpdates) (now : Nat) :
    ((lib.map (fun i => if i.id == id then applyUpdates i u now else i)).map
      (fun i => i.id)) = lib.map (fun i => i.id) := by
  induction lib with
  | nil => rfl
  | cons a rest ih =>
    simp only [List.map_cons]
    by_cases h : (a.id == id) = true
    · rw [if_pos h]
      exact congrArg (fun t => a.id :: t) ih
    · rw [if_neg h]
      exact congrArg (fun t => a.id :: t) ih

lemma schedInv_map_update (lib : List GeneratedContent) (id : String)
    (u : ContentUpdates) (now : Nat) (hinv : SchedInv lib)
    (hupd : ∀ i ∈ lib, (i.id == id) = true →
      ((applyUpdates i u now).status = ContentStatus.scheduled ↔
        (applyUpdates i u now).scheduledFor ≠ none)) :
    SchedInv (lib.map (fun i => if i.id == id then applyUpdates i u now else i)) := by
  intro x hx
  obtain ⟨i, hi, rfl⟩ := List.mem_map.mp hx
  by_cases h : (i.id == id) = true
  · simpa [h] using hupd i hi h
  · simpa [h] using hinv i hi

lemma bulkGo_inv (users : List User) (cu : Option User)
    (orig : List GeneratedContent) (now step : Nat) :
    ∀ (ids : List String) (cursor : Nat) (lib : List GeneratedContent),
      SchedInv lib ∧ (lib.map (fun i => i.id)).Nodup →
      SchedInv (bulkGo users cu orig now step ids cursor lib).1 ∧
        ((bulkGo users cu orig now step ids cursor lib).1.map (fun i => i.id)).Nodup := by
  intro ids
  induction ids with
  | nil => intro cursor lib h; exact h
  | cons id rest ih =>
    intro cursor lib h
    by_cases ha : isApprovedIn orig id
    · obtain ⟨item, hf, _⟩ := exists_of_isApprovedIn orig id ha
      have hstep : bulkGo users cu orig now step (id :: rest) cursor lib =
          (bulkGo users cu orig now step rest (cursor + step * msPerDay)
             (lib.map (fun i =>
               if i.id == id then applyUpdates i (schedUpd cursor) now else i)) |>.1,
           (bulkGo users cu orig now step rest (cursor + step * msPerDay)
             (lib.map (fun i =>
               if i.id == id then applyUpdates i (schedUpd cursor) now else i)) |>.2)) := by
        simp [bulkGo, ha,
          updateLibraryItem_found users cu orig lib id (schedUpd cursor) now item hf,
          transitionNotification_schedUpd]
      rw [hstep]
      refine ih (cursor + step * msPerDay) _ ⟨?_, ?_⟩
      · refine schedInv_map_update lib id (schedUpd cursor) now h.1 ?_
        intro i _ _
        simp [applyUpdates, schedUpd]
      · rw [map_id_update]
        exact h.2
    · have hstep : bulkGo users cu orig now step (id :: rest) cursor lib =
          bulkGo users cu orig now step rest cursor lib := by
        simp [bulkGo, ha]
      rw [hstep]
      exact ih cursor lib h

lemma storeInv_stepSafe (users : List User) {s t : AppState}
    (hst : StepSafe users s t)
    (hinv : SchedInv s.library ∧ (s.library.map (fun i => i.id)).Nodup) :
    SchedInv t.library ∧ (t.library.map (fun i => i.id)).Nodup := by
  cases hst with
  | create item hfresh hdraft hsched =>
    constructor
    · intro x hx
      rcases List.mem_cons.mp hx with rfl | hx
      · simp [hdraft, hsched]
      · exact hinv.1 x hx
    · refine List.nodup_cons.mpr ⟨?_, hinv.2⟩
      intro hmem
      obtain ⟨i, hi, hieq⟩ := List.mem_map.mp hmem
      exact hfresh i hi hieq
  | request actor id target now =>
    cases hf : s.library.find? (fun i => i.id == id) with
    | none =>
      simpa [requestTransition_missing users actor s.library id target now hf]
        using hinv
    | some item =>
      by_cases hg : transitionAllowed actor item target
      · have heq := requestTransition_allowed users actor s.library id target now item hf hg
        constructor
        · show SchedInv (requestTransition users actor s.library id target now).1
          rw [heq]
          refine schedInv_map_update s.library id (statusUpd target) now hinv.1 ?_
          intro i hi hiid
          have hitem : i = item := by
            have hmem : item ∈ s.library := List.mem_of_find?_eq_some hf
            have hpid : (item.id == id) = true := by
              have h0 := List.find?_some hf
              simpa using h0
            exact List.inj_on_of_nodup_map hinv.2 hi hmem
              (by
                have h1 : i.id = id := by simpa using hiid
                have h2 : item.id = id := by simpa using hpid
                rw [h1, h2])
          subst hitem
          obtain ⟨htar, hstat⟩ := transitionAllowed_facts actor i target hg
          have hnotsched : i.status ≠ ContentStatus.scheduled := by
            rcases hstat with hs | hs <;> simp [hs]
          have hnone : i.scheduledFor = none := by
            by_contra hcon
            exact hnotsched ((hinv.1 i hi).mpr hcon)
          simp [applyUpdates, statusUpd, hnone, htar]
        · show ((requestTransition users actor s.library id target now).1.map
              (fun i => i.id)).Nodup
          rw [heq]
          exact (map_id_update s.library id (statusUpd target) now).symm ▸ hinv.2
      · simpa [requestTransition_not_allowed users actor s.library id target now
          item hf (by simpa using hg)] using hinv
  | bulk actor ids start intervalDays now =>
    by_cases hrole : actor.role = UserRole.Editor
    · have heq : (handleBulkSchedule users actor s.library ids start intervalDays now).1 =
          (bulkGo users (some actor) s.library now intervalDays ids start s.library).1 := by
        simp [handleBulkSchedule, hrole]
      constructor
      · show SchedInv (handleBulkSchedule users actor s.library ids start intervalDays now).1
        rw [heq]
        exact (bulkGo_inv users (some actor) s.library now intervalDays ids start
          s.library hinv).1
      · show ((handleBulkSchedule users actor s.library ids start intervalDays now).1.map
            (fun i => i.id)).Nodup
        rw [heq]
        exact (bulkGo_inv users (some actor) s.library now intervalDays ids start
          s.library hinv).2
    · simpa [handleBulkSchedule, hrole] using hinv
  | remove id =>
    constructor
    · intro x hx
      exact hinv.1 x (List.mem_of_mem_filter hx)
    · exact ((List.filter_sublist s.library).map (fun i => i.id)).nodup hinv.2
  | publishClick actor item hmem happ hrole => exact hinv
  | publishResolve actor id hid siteId postId postUrl now hsafe =>
    cases hf : s.library.find? (fun i => i.id == id) with
    | none =>
      simpa [updateLibraryItem_missing users (some actor) s.library s.library id
        (publishUpd siteId postId postUrl) now hf] using hinv
    | some item =>
      have heq := updateLibraryItem_found users (some actor) s.library s.library id
        (publishUpd siteId postId postUrl) now item hf
      constructor
      · show SchedInv (updateLibraryItem users (some actor) s.library s.library id
            (publishUpd siteId postId postUrl) now).1
        rw [heq]
        refine schedInv_map_update s.library id (publishUpd siteId postId postUrl)
          now hinv.1 ?_
        intro i hi hiid
        have hnotsched : i.status ≠ ContentStatus.scheduled :=
          hsafe i hi (by simpa using hiid)
        have hnone : i.scheduledFor = none := by
          by_contra hcon
          exact hnotsched ((hinv.1 i hi).mpr hcon)
        simp [applyUpdates, publishUpd, hnone]
      · show ((updateLibraryItem users (some actor) s.library s.library id
            (publishUpd siteId postId postUrl) now).1.map (fun i => i.id)).Nodup
        rw [heq]
        exact (map_id_update s.library id
          (publishUpd siteId postId postUrl) now).symm ▸ hinv.2
  | publishReject id hid => exact hinv

lemma filter_three (A B C : GeneratedContent → Bool) :
    ∀ (lib : List GeneratedContent),
      ((lib.filter A).filter B).filter C =
        lib.filter (fun i => A i && B i && C i) := by
  intro lib
  simp only [List.filter_filter]
  refine List.filter_congr ?_
  intro a _
  cases A a <;> cases B a <;> cases C a <;> rfl

lemma typeMatches_iff (tf : TypeFilter) (item : GeneratedContent) :
    typeMatches tf item = true ↔
      (tf = TypeFilter.all ∨
        (tf = TypeFilter.article ∧ item.type = ContentType.article) ∨
        (tf = TypeFilter.product ∧ item.type = ContentType.product)) := by
  cases tf <;> simp [typeMatches]

lemma statusMatches_iff (sf : StatusFilter) (item : GeneratedContent) :
    statusMatches sf item = true ↔
      (sf = StatusFilter.all ∨ sf = StatusFilter.only item.status) := by
  cases sf with
  | all => simp [statusMatches]
  | only s =>
    simp only [statusMatches, beq_iff_eq, StatusFilter.only.injEq]
    constructor
    · intro h
      exact Or.inr h.symm
    · intro h
      rcases h with h | h
      · cases h
      · exact h.symm

lemma searchMatches_iff (users : List User) (q : String) (item : GeneratedContent) :
    searchMatches users q item = true ↔
      (lowerData q <:+: lowerData item.title ∨
        lowerData q <:+: lowerData (getAuthorEmail users item.authorId)) := by
  simp [searchMatches, strIncludesCI]

lemma searchMatches_empty (users : List User) (item : GeneratedContent) :
    searchMatches users "" item = true := by
  have h0 : lowerData "" = [] := rfl
  rw [searchMatches_iff]
  exact Or.inl (h0 ▸ List.nil_infix)

/-! ## Claim theorems -/

/-- C1: a bulk schedule run by an editor over distinct selected ids with a
positive `intervalDays` processes the ids in order with a cursor starting
at `startDate`: the `k`-th id (0-based) whose item is `approved` in the
pre-run library has that item set to `scheduled` with
`scheduledFor = start + k · intervalDays` days, every item not at such a
position (skipped or unselected) is left unchanged, the cursor does not
advance on skips, and the assigned instants are strictly increasing, no
two equal. -/
theorem bulk_schedule_assignment (users : List User) (editor : User)
    (lib : List GeneratedContent) (ids : List String)
    (start intervalDays now : Nat)
    (hrole : editor.role = UserRole.Editor) (hids : ids.Nodup)
    (hpos : 0 < intervalDays) :
    (handleBulkSchedule users editor lib ids start intervalDays now).1 =
      lib.map (bulkItemResult (ids.filter (fun i => isApprovedIn lib i))
        now start (intervalDays * msPerDay)) ∧
    (∀ item ∈ lib,
      idxOf? item.id (ids.filter (fun i => isApprovedIn lib i)) = none →
      item ∈ (handleBulkSchedule users editor lib ids start intervalDays now).1) ∧
    (∀ k l : Nat, k < l →
      start + k * (intervalDays * msPerDay) <
        start + l * (intervalDays * msPerDay)) := by
  have h1 : (handleBulkSchedule users editor lib ids start intervalDays now).1 =
      (bulkGo users (some editor) lib now intervalDays ids start lib).1 := by
    simp [handleBulkSchedule, hrole]
  have hmain : (handleBulkSchedule users editor lib ids start intervalDays now).1 =
      lib.map (bulkItemResult (ids.filter (fun i => isApprovedIn lib i))
        now start (intervalDays * msPerDay)) := by
    rw [h1]
    exact bulkGo_fst users (some editor) lib now intervalDays ids start lib hids
  refine ⟨hmain, ?_, ?_⟩
  · intro item hmem hidx
    rw [hmain]
    have hb : bulkItemResult (ids.filter (fun i => isApprovedIn lib i))
        now start (intervalDays * msPerDay) item = item := by
      unfold bulkItemResult
      rw [hidx]
    exact hb ▸ List.mem_map_of_mem _ hmem
  · intro k l hkl
    have hm : 0 < intervalDays * msPerDay := Nat.mul_pos hpos (by decide)
    exact Nat.add_lt_add_left (Nat.mul_lt_mul_of_pos_right hkl hm) start

/-- Witness for C1: one approved item scheduled at the start instant. -/
theorem bulk_schedule_assignment_witness :
    (handleBulkSchedule [] editorU [mkItem "a" ContentStatus.approved none]
        ["a"] 0 1 5).1 =
      [mkItem "a" ContentStatus.approved none].map
        (bulkItemResult ((["a"]).filter
          (fun i => isApprovedIn [mkItem "a" ContentStatus.approved none] i))
          5 0 (1 * msPerDay)) :=
  (bulk_schedule_assignment [] editorU [mkItem "a" ContentStatus.approved none]
    ["a"] 0 1 5 rfl (by decide) (by decide)).1

/-- C2 (amended): the bulk schedule returns no count, and its single
aggregate notification reports `selectedIds.length` — the number of ids
submitted, skipped ones included — not the number of items actually
transitioned. -/
theorem bulk_schedule_notification_count (users : List User) (editor : User)
    (lib : List GeneratedContent) (ids : List String)
    (start intervalDays now : Nat)
    (hrole : editor.role = UserRole.Editor) :
    (handleBulkSchedule users editor lib ids start intervalDays now).2 =
      [⟨TMessage.bulkScheduleSuccess ids.length, NotifType.success⟩] := by
  simp [handleBulkSchedule, hrole, bulkGo_snd]

/-- Counterexample to C2 as stated: two ids submitted, only one item
approved — one item is transitioned to `scheduled`, yet the aggregate
notification reports count 2, not 1. -/
theorem bulk_schedule_notification_cex :
    (handleBulkSchedule [] editorU
        [mkItem "a" ContentStatus.approved none, mkItem "b" ContentStatus.draft none]
        ["a", "b"] 0 1 9).2 =
      [⟨TMessage.bulkScheduleSuccess 2, NotifType.success⟩] ∧
    ((handleBulkSchedule [] editorU
        [mkItem "a" ContentStatus.approved none, mkItem "b" ContentStatus.draft none]
        ["a", "b"] 0 1 9).1.filter
        (fun i => i.status == ContentStatus.scheduled)).length = 1 ∧
    (2 : Nat) ≠ 1 :=
  ⟨by decide, by decide, by decide⟩

/-- Witness for C2 (amended) at a singleton batch. -/
theorem bulk_schedule_notification_count_witness :
    (handleBulkSchedule [] editorU [mkItem "c" ContentStatus.approved none]
        ["c"] 4 2 6).2 =
      [⟨TMessage.bulkScheduleSuccess 1, NotifType.success⟩] :=
  bulk_schedule_notification_count [] editorU
    [mkItem "c" ContentStatus.approved none] ["c"] 4 2 6 rfl

/-- Counterexample to C3 as stated: a draft is created, submitted,
approved, a publish is started (external call in flight), the item is
bulk-scheduled meanwhile, and the publish call then resolves — the
write-back sets `status: 'published'` without clearing `scheduledFor`,
so the reachable final store violates the `scheduledFor ↔ scheduled`
invariant. -/
theorem sched_invariant_race_cex :
    Reachable demoUsers raceS6 ∧ ¬ SchedInv raceS6.library := by
  constructor
  · have h0 : Reachable demoUsers ⟨[], []⟩ := Reachable.init
    have h1 : Reachable demoUsers raceS1 :=
      Reachable.step h0
        (Step.create ⟨[], []⟩ raceItem (by intro i hi; cases hi) rfl rfl)
    have h2 : Reachable demoUsers raceS2 :=
      Reachable.step h1
        (Step.request raceS1 writerU "a" ContentStatus.needsReview 1)
    have h3 : Reachable demoUsers raceS3 :=
      Reachable.step h2
        (Step.request raceS2 editorU "a" ContentStatus.approved 2)
    have h4 : Reachable demoUsers raceS4 :=
      Reachable.step h3
        (Step.publishClick raceS3 editorU raceItemApproved (by decide) rfl rfl)
    have h5 : Reachable demoUsers raceS5 :=
      Reachable.step h4 (Step.bulk raceS4 editorU ["a"] 100 1 5)
    exact Reachable.step h5
      (Step.publishResolve raceS5 editorU "a" (by decide) "s1" 7 "url" 6)
  · unfold SchedInv
    decide

/-- C3 (amended): the `scheduledFor ↔ scheduled` invariant holds in every
store state reachable through the workflow core provided no publish
write-back lands on an item that was bulk-scheduled while the external
call was in flight (and generated drafts carry fresh ids); the excluded
race is exactly the counterexample. -/
theorem sched_invariant_safe (users : List User) (s : AppState)
    (h : ReachableSafe users s) : SchedInv s.library := by
  have hinv : SchedInv s.library ∧ (s.library.map (fun i => i.id)).Nodup := by
    induction h with
    | init =>
      constructor
      · intro x hx
        cases hx
      · simp
    | step h hst ih => exact storeInv_stepSafe users hst ih
  exact hinv.1

/-- Witness for C3 (amended): the invariant holds after creating a fresh
draft in an empty session. -/
theorem sched_invariant_safe_witness :
    SchedInv (AppState.mk [raceItem] []).library :=
  sched_invariant_safe demoUsers ⟨[raceItem], []⟩
    (ReachableSafe.step ReachableSafe.init
      (StepSafe.create ⟨[], []⟩ raceItem (by intro i hi; cases hi) rfl rfl))

/-- Counterexample to C4 as stated: a Writer requesting a transition on
another author's draft causes no mutation, but also no Authorization
error of any kind — the request is silently ignored (the notification
list is empty), whereas the claim requires an Authorization failure to
be raised. -/
theorem transition_guard_cex :
    requestTransition [] writerU [mkItem "d" ContentStatus.draft (some "w2")]
        "d" ContentStatus.needsReview 4 =
      ([mkItem "d" ContentStatus.draft (some "w2")], []) := by
  decide

/-- C4 (amended): a transition request whose (from, to) pair is outside
the table, whose actor lacks the required role, or where a Writer does
not author the item, is never offered by the UI and is a silent no-op:
the store is unchanged and no notification (in particular no
Authorization error) is emitted; the offered requests are exactly the
table pairs draft→needs-review (authoring Writer), needs-review→approved
and needs-review→draft (Editor) — approved→published and
approved→scheduled run through the separate publish and bulk-schedule
flows. -/
theorem transition_guard (users : List User) (actor : User)
    (lib : List GeneratedContent) (id : String) (target : ContentStatus)
    (now : Nat) :
    (lib.find? (fun i => i.id == id) = none →
      requestTransition users actor lib id target now = (lib, [])) ∧
    (∀ item, lib.find? (fun i => i.id == id) = some item →
      transitionAllowed actor item target = false →
      requestTransition users actor lib id target now = (lib, [])) ∧
    (∀ item : GeneratedContent,
      transitionAllowed actor item target = true ↔
        ((actor.role = UserRole.Editor ∧
          item.status = ContentStatus.needsReview ∧
          (target = ContentStatus.approved ∨ target = ContentStatus.draft)) ∨
         (actor.role = UserRole.Writer ∧ item.status = ContentStatus.draft ∧
          item.authorId = some actor.id ∧
          target = ContentStatus.needsReview))) :=
  ⟨fun hf => requestTransition_missing users actor lib id target now hf,
   fun item hf hg =>
     requestTransition_not_allowed users actor lib id target now item hf hg,
   fun item => transitionAllowed_iff actor item target⟩

/-- Witness for C4 (amended): a request against an empty store is a
silent no-op. -/
theorem transition_guard_witness :
    requestTransition [] writerU [] "x" ContentStatus.draft 0 = ([], []) :=
  (transition_guard [] writerU [] "x" ContentStatus.draft 0).1 rfl

/-- C5: when the requested id references no existing item — in
particular when the item was deleted while a publish call was in
flight — both the raw update write-back and a transition request leave
the store completely unchanged and emit nothing: a no-op, not an
error. -/
theorem missing_item_noop (users : List User) (cu : Option User)
    (actor : User) (lib : List GeneratedContent) (id : String)
    (u : ContentUpdates) (target : ContentStatus) (now later : Nat)
    (h : ∀ i ∈ lib, ¬ i.id = id) :
    updateLibraryItem users cu lib lib id u now = (lib, none) ∧
    requestTransition users actor lib id target later = (lib, []) := by
  have hf : lib.find? (fun i => i.id == id) = none := by
    rw [List.find?_eq_none]
    intro x hx
    simpa using h x hx
  exact ⟨updateLibraryItem_missing users cu lib lib id u now hf,
    requestTransition_missing users actor lib id target later hf⟩

/-- Witness for C5: publishing write-back and transition request against
a store that no longer holds the item. -/
theorem missing_item_noop_witness :
    updateLibraryItem [] (some editorU) [] [] "gone"
        (publishUpd "s1" 1 "u") 0 = ([], none) ∧
    requestTransition [] editorU [] "gone" ContentStatus.published 1 =
      ([], []) :=
  missing_item_noop [] (some editorU) editorU [] "gone"
    (publishUpd "s1" 1 "u") ContentStatus.published 0 1
    (by intro i hi; cases hi)

/-- C6: for a publish with a resolvable site, the item is updated (to
`published`, with the external ids) only when the external call
resolves; when it rejects, the store is completely unchanged — the item
stays `approved` — and exactly one error notification is emitted whose
message carries the external error message verbatim. -/
theorem publish_async_boundary (users : List User) (editor : User)
    (content : GeneratedContent) (sites : List WordPressSite)
    (options : PublishingOptions) (lib : List GeneratedContent) (now : Nat)
    (site : WordPressSite)
    (hrole : editor.role = UserRole.Editor)
    (hsite : sites.find? (fun s => s.id == options.siteId) = some site) :
    (∀ msg,
      handlePublish editor content sites options (Except.error msg) users lib now =
        (lib, [⟨TMessage.publishFail msg, NotifType.error⟩])) ∧
    (∀ postUrl postId,
      (handlePublish editor content sites options (Except.ok (postUrl, postId))
          users lib now).1 =
        if (lib.find? (fun i => i.id == content.id)).isSome then
          lib.map (fun i => if i.id == content.id then
            applyUpdates i
              ⟨some ContentStatus.published, none, some site.id,
               some postId, some postUrl⟩ now else i)
        else lib) := by
  constructor
  · intro msg
    simp [handlePublish, hrole, hsite]
  · intro postUrl postId
    cases hf : lib.find? (fun i => i.id == content.id) with
    | none =>
      simp [handlePublish, hrole, hsite, hf,
        updateLibraryItem_missing users (some editor) lib lib content.id
          ⟨some ContentStatus.published, none, some site.id, some postId,
           some postUrl⟩ now hf]
    | some item =>
      simp [handlePublish, hrole, hsite, hf,
        updateLibraryItem_found users (some editor) lib lib content.id
          ⟨some ContentStatus.published, none, some site.id, some postId,
           some postUrl⟩ now item hf]

/-- Witness for C6: a rejecting external call leaves the approved item
unchanged and surfaces the message. -/
theorem publish_async_boundary_witness :
    handlePublish editorU (mkItem "a" ContentStatus.approved none) [demoSite]
        ⟨"s1"⟩ (Except.error "boom") []
        [mkItem "a" ContentStatus.approved none] 4 =
      ([mkItem "a" ContentStatus.approved none],
       [⟨TMessage.publishFail "boom", NotifType.error⟩]) :=
  (publish_async_boundary [] editorU (mkItem "a" ContentStatus.approved none)
    [demoSite] ⟨"s1"⟩ [mkItem "a" ContentStatus.approved none] 4 demoSite
    rfl (by decide)).1 "boom"

/-- Counterexample to C7 as stated: a non-editor bulk schedule performs
no mutation, but emits no notification at all — no Unauthorized error is
raised, the operation is a silent no-op. -/
theorem bulk_schedule_non_editor_cex :
    (handleBulkSchedule [] writerU [mkItem "b" ContentStatus.approved none]
        ["b"] 5 2 7).2 = [] ∧
    (handleBulkSchedule [] writerU [mkItem "b" ContentStatus.approved none]
        ["b"] 5 2 7).1 = [mkItem "b" ContentStatus.approved none] :=
  ⟨by decide, by decide⟩

/-- C7 (amended): a bulk schedule by an actor whose role is not Editor
mutates no item — and, unlike the claim's wording, fails silently: it
emits no Unauthorized error, returning the store unchanged with no
notification. -/
theorem bulk_schedule_non_editor (users : List User) (actor : User)
    (lib : List GeneratedContent) (ids : List String)
    (start intervalDays now : Nat)
    (hrole : actor.role ≠ UserRole.Editor) :
    handleBulkSchedule users actor lib ids start intervalDays now = (lib, []) := by
  simp [handleBulkSchedule, hrole]

/-- Witness for C7 (amended) at a concrete writer. -/
theorem bulk_schedule_non_editor_witness :
    handleBulkSchedule [] writerU [mkItem "a" ContentStatus.approved none]
        ["a"] 0 1 3 =
      ([mkItem "a" ContentStatus.approved none], []) :=
  bulk_schedule_non_editor [] writerU [mkItem "a" ContentStatus.approved none]
    ["a"] 0 1 3 (by decide)

/-- C8: an editor rejecting a `needs-review` item sends it back to
`draft` and emits exactly one notification, of the error class, naming
the rejecting editor; in general an offered (allowed) transition emits
exactly one notification and a non-offered one is a no-op with no
notification. -/
theorem reject_notification_discipline (users : List User) (actor : User)
    (lib : List GeneratedContent) (id : String) (target : ContentStatus)
    (now : Nat) (item : GeneratedContent)
    (hf : lib.find? (fun i => i.id == id) = some item) :
    (transitionAllowed actor item target = true →
      (requestTransition users actor lib id target now).2.length = 1) ∧
    (transitionAllowed actor item target = false →
      requestTransition users actor lib id target now = (lib, [])) ∧
    (actor.role = UserRole.Editor → item.status = ContentStatus.needsReview →
      target = ContentStatus.draft →
      (requestTransition users actor lib id target now).1 =
        lib.map (fun i => if i.id == id then
          applyUpdates i (statusUpd ContentStatus.draft) now else i) ∧
      (requestTransition users actor lib id target now).2 =
        [⟨TMessage.rejectedBy item.title (some actor.email), NotifType.error⟩]) := by
  refine ⟨?_, ?_, ?_⟩
  · intro hg
    rw [requestTransition_allowed users actor lib id target now item hf hg]
    have hsome := transitionNotification_isSome users (some actor) actor item target hg
    cases hnot : transitionNotification users (some actor) item (statusUpd target) with
    | none => rw [hnot] at hsome; cases hsome
    | some n => simp [hnot]
  · intro hg
    exact requestTransition_not_allowed users actor lib id target now item hf hg
  · intro hrole hs ht
    subst ht
    have hg : transitionAllowed actor item ContentStatus.draft = true := by
      rw [transitionAllowed_iff]
      exact Or.inl ⟨hrole, hs, Or.inr rfl⟩
    rw [requestTransition_allowed users actor lib id ContentStatus.draft now item hf hg]
    refine ⟨rfl, ?_⟩
    rw [transitionNotification_reject users (some actor) item hs]
    rfl

/-- Witness for C8: a concrete rejection emits the single error
notification naming the editor. -/
theorem reject_notification_discipline_witness :
    (requestTransition demoUsers editorU
        [mkItem "n" ContentStatus.needsReview (some "w1")] "n"
        ContentStatus.draft 3).2 =
      [⟨TMessage.rejectedBy "n" (some "editor@x"), NotifType.error⟩] :=
  ((reject_notification_discipline demoUsers editorU
      [mkItem "n" ContentStatus.needsReview (some "w1")] "n"
      ContentStatus.draft 3 (mkItem "n" ContentStatus.needsReview (some "w1"))
      (by decide)).2.2 rfl rfl rfl).2

/-- C9: the library query is the ordered subsequence of the input
(a sublist, input order preserved) of exactly the items passing the type
filter, status filter and case-insensitive title/author-email search
(the spec-side predicate `querySpec`); the empty search matches every
item, and the query is a pure function: equal arguments give equal
output. -/
theorem query_characterization (users : List User)
    (lib : List GeneratedContent) (tf : TypeFilter) (sf : StatusFilter)
    (q : String) :
    filteredLibrary users lib tf sf q =
      lib.filter (fun i => typeMatches tf i && statusMatches sf i &&
        searchMatches users q i) ∧
    List.Sublist (filteredLibrary users lib tf sf q) lib ∧
    (∀ item, item ∈ filteredLibrary users lib tf sf q ↔
      (item ∈ lib ∧ querySpec users tf sf q item)) ∧
    (∀ item, searchMatches users "" item = true) ∧
    filteredLibrary users lib tf sf q = filteredLibrary users lib tf sf q := by
  have hchar : filteredLibrary users lib tf sf q =
      lib.filter (fun i => typeMatches tf i && statusMatches sf i &&
        searchMatches users q i) :=
    filter_three (typeMatches tf) (statusMatches sf) (searchMatches users q) lib
  refine ⟨hchar, ?_, ?_, fun item => searchMatches_empty users item, rfl⟩
  · rw [hchar]
    exact List.filter_sublist lib
  · intro item
    rw [hchar, List.mem_filter]
    constructor
    · rintro ⟨hmem, hp⟩
      simp only [Bool.and_eq_true] at hp
      exact ⟨hmem, (typeMatches_iff tf item).mp hp.1.1,
        (statusMatches_iff sf item).mp hp.1.2,
        (searchMatches_iff users q item).mp hp.2⟩
    · rintro ⟨hmem, h1, h2, h3⟩
      refine ⟨hmem, ?_⟩
      simp only [Bool.and_eq_true]
      exact ⟨⟨(typeMatches_iff tf item).mpr h1,
        (statusMatches_iff sf item).mpr h2⟩,
        (searchMatches_iff users q item).mpr h3⟩

/-- C10: publishing with a `siteId` that matches no configured site
takes the error path before the external call: whatever the external
publisher would have answered, the store is unchanged and the single
emitted notification is the error carrying "Selected site not found". -/
theorem publish_site_not_found (users : List User) (editor : User)
    (content : GeneratedContent) (sites : List WordPressSite)
    (options : PublishingOptions) (pubResult : Except String (String × Nat))
    (lib : List GeneratedContent) (now : Nat)
    (hrole : editor.role = UserRole.Editor)
    (hnone : sites.find? (fun s => s.id == options.siteId) = none) :
    handlePublish editor content sites options pubResult users lib now =
      (lib, [⟨TMessage.publishFail ("Selected site not found"),
             NotifType.error⟩]) := by
  simp [handlePublish, hrole, hnone]

/-- Witness for C10: no configured sites at all. -/
theorem publish_site_not_found_witness :
    handlePublish editorU (mkItem "a" ContentStatus.approved none) [] ⟨"sX"⟩
        (Except.ok ("u", 1)) [] [mkItem "a" ContentStatus.approved none] 2 =
      ([mkItem "a" ContentStatus.approved none],
       [⟨TMessage.publishFail ("Selected site not found"), NotifType.error⟩]) :=
  publish_site_not_found [] editorU (mkItem "a" ContentStatus.approved none)
    [] ⟨"sX"⟩ (Except.ok ("u", 1)) [mkItem "a" ContentStatus.approved none] 2
    rfl rfl

end ContentWorkflow
